import Mathlib

/-!
Verification of the kraaler crawler core against its specification.

The development shallowly embeds the parts of the Go code that the checked
properties are about:

* the event correlator `ActionsFromEvents` (worker.go);
* the URL store `urlStore` (store/url.go): `Add`, `Visit`, `Sample`,
  startup loading, and the pair-weighted sampler;
* the content-addressed file store `FileStore.Store` (store/init.go);
* the transactional save path `Store.SaveSession`;
* the dimension id-store `IDStore.Get`.

Pointers are replaced by indices/natural-number identifiers, Go maps by
association lists (latest binding first), machine integers by `Int`/`Nat`,
and float64 quantities by `ℚ` (only signs, zero tests and order of these
quantities matter to the claims, which exact rational arithmetic preserves).
External library calls (`url.Parse`, DNS, SQL drivers) are modelled at the
interface granularity the code uses them.
-/

namespace Kraaler

/-! ## Event correlator (worker.go, `ActionsFromEvents`)

The correlator receives four lists of debugger events and folds them into a
list of `CrawlAction`s.  Go's `*CrawlAction` parent pointers are replaced by
indices into the action list; Go's `map[network.RequestID]*CrawlAction` by an
association list from request-id strings to indices (latest binding first,
matching map overwrite semantics).
-/

/-- Result of Go's `url.Parse`: the fields of `*url.URL` the embedded code
reads.  `str` is the `String()` rendering. -/
structure GoUrl where
  scheme : String
  host : String
  str : String
deriving DecidableEq, Repr

/-- `network.Request`: the URL string together with the result of
`url.Parse` on it (`none` models a parse error), as `ActionsFromEvents`
immediately parses `sent.Request.URL`. -/
structure NetRequest where
  urlStr : String
  parsed : Option GoUrl
deriving DecidableEq, Repr

/-- `network.Response`: only the `Status` field is read by the correlator. -/
structure NetResponse where
  status : Int
deriving DecidableEq, Repr

/-- `network.RequestWillBeSentReply`, restricted to the fields the
correlator reads.  `timestamp` is the event's `Timestamp` (a float64 in Go,
modelled as `ℚ`); the cited code never reads it, which is what claim C1 is
about. -/
structure RequestEvent where
  requestID : String
  loaderID : String
  timestamp : ℚ
  request : NetRequest
  initiatorType : String
  redirectResponse : Option NetResponse
deriving DecidableEq, Repr

/-- `network.ResponseReceivedReply`, restricted to the fields read. -/
structure ResponseEvent where
  requestID : String
  response : NetResponse
deriving DecidableEq, Repr

/-- `network.LoadingFailedReply`, restricted to the fields read. -/
structure ErrorEvent where
  requestID : String
  errorText : String
deriving DecidableEq, Repr

/-- `ResponseBody` (worker.go): request id plus payload and checksum. -/
structure BodyEvent where
  requestID : String
  body : String
  sha256 : String
deriving DecidableEq, Repr

/-- `BrowserEvents` (worker.go): the four event lists. -/
structure BrowserEvents where
  requests : List RequestEvent
  responses : List ResponseEvent
  errors : List ErrorEvent
  bodies : List BodyEvent
deriving DecidableEq, Repr

/-- `Initiator` (kraaler package); the correlator only sets `Kind`. -/
structure Initiator where
  kind : String
deriving DecidableEq, Repr

/-- `CrawlAction`, with the parent pointer replaced by an index into the
action list.  `Timings` is never written by the cited correlator, so it is
omitted (its zero value carries no information). -/
structure CrawlAction where
  parent : Option Nat
  initiator : Initiator
  request : NetRequest
  response : Option NetResponse
  error : Option String
  body : Option BodyEvent
deriving DecidableEq, Repr

/-- Association-list lookup, latest binding first (Go map read). -/
def alookup {α : Type} (m : List (String × α)) (k : String) : Option α :=
  (m.find? (fun kv => kv.1 == k)).map (fun kv => kv.2)

/-- Replace the element at index `n` by `f` of it; out-of-range is the
identity (never reached by the embedded code). -/
def modifyAt {α : Type} (l : List α) (n : Nat) (f : α → α) : List α :=
  match l, n with
  | [], _ => []
  | a :: t, 0 => f a :: t
  | a :: t, n + 1 => a :: modifyAt t n f

/-- State of the correlator's first pass: the actions built so far and the
`requests` map from request id to the action it created. -/
structure CorrState where
  actions : List CrawlAction
  requests : List (String × Nat)
deriving Repr

/-- One `requestWillBeSent` event of the first pass of `ActionsFromEvents`:
skip on parse failure or `data:` scheme; otherwise build the action, and if
the loader id is a known request id, unconditionally assign that (parent)
action's `Response` from the event's `RedirectResponse` and link `Parent`;
finally record the new action under its request id. -/
def handleRequestEvent (st : CorrState) (e : RequestEvent) : CorrState :=
  match e.request.parsed with
  | none => st
  | some u =>
    if u.scheme = "data" then st
    else
      let base : CrawlAction :=
        { parent := none, initiator := { kind := e.initiatorType },
          request := e.request, response := none, error := none, body := none }
      match alookup st.requests e.loaderID with
      | some p =>
        let acts := modifyAt st.actions p (fun a => { a with response := e.redirectResponse })
        { actions := acts ++ [{ base with parent := some p }],
          requests := (e.requestID, acts.length) :: st.requests }
      | none =>
        { actions := st.actions ++ [base],
          requests := (e.requestID, st.actions.length) :: st.requests }

/-- Second pass: a `responseReceived` event sets the matching action's
response (orphans are dropped). -/
def handleResponseEvent (rm : List (String × Nat)) (acts : List CrawlAction)
    (e : ResponseEvent) : List CrawlAction :=
  match alookup rm e.requestID with
  | none => acts
  | some p => modifyAt acts p (fun a => { a with response := some e.response })

/-- Third pass: a `loadingFailed` event sets the matching action's error
text unless one is already present. -/
def handleErrorEvent (rm : List (String × Nat)) (acts : List CrawlAction)
    (e : ErrorEvent) : List CrawlAction :=
  match alookup rm e.requestID with
  | none => acts
  | some p => modifyAt acts p (fun a =>
      if a.error = none then { a with error := some e.errorText } else a)

/-- Fourth pass: a body event attaches the body to the matching action. -/
def handleBodyEvent (rm : List (String × Nat)) (acts : List CrawlAction)
    (e : BodyEvent) : List CrawlAction :=
  match alookup rm e.requestID with
  | none => acts
  | some p => modifyAt acts p (fun a => { a with body := some e })

/-- Classification of one action (final pass of `ActionsFromEvents`).  The
Go loop mutates only `Initiator.Kind` fields and reads only `Parent` and
`Response` fields, so mapping each element against the pre-pass list is
exactly the in-place loop. -/
def classifyOne (acts : List CrawlAction) (a : CrawlAction) : CrawlAction :=
  match a.parent with
  | some p =>
    match (acts.get? p).bind (fun pa => pa.response) with
    | some r =>
      if 300 ≤ r.status ∧ r.status < 400 then
        { a with initiator := { kind := "redirect" } }
      else a
    | none => { a with initiator := { kind := "user" } }
  | none => { a with initiator := { kind := "user" } }

/-- Final pass of `ActionsFromEvents`. -/
def classify (acts : List CrawlAction) : List CrawlAction :=
  acts.map (classifyOne acts)

/-- The action list of `ActionsFromEvents` after the first four passes,
before classification. -/
def correlate (evs : BrowserEvents) : List CrawlAction :=
  let st := evs.requests.foldl handleRequestEvent { actions := [], requests := [] }
  let a1 := evs.responses.foldl (handleResponseEvent st.requests) st.actions
  let a2 := evs.errors.foldl (handleErrorEvent st.requests) a1
  evs.bodies.foldl (handleBodyEvent st.requests) a2

/-- `ActionsFromEvents` (worker.go): the full correlator. -/
def actionsFromEvents (evs : BrowserEvents) : List CrawlAction :=
  classify (correlate evs)

/-- The request events that survive the first pass's two skip conditions
(`url.Parse` failure, `data:` scheme).  The first pass appends exactly one
action per kept event, in event order. -/
def keptRequests (evs : BrowserEvents) : List RequestEvent :=
  evs.requests.filter (fun e =>
    match e.request.parsed with
    | none => false
    | some u => u.scheme ≠ "data")

/-- The fields of an action that the correlator's passes 2–5 never change:
its request and (before classification) its initiator kind. -/
def snap (a : CrawlAction) : NetRequest × String := (a.request, a.initiator.kind)

/-- The request/initiator-type payload of a request event, as copied into
the action it creates. -/
def esnap (e : RequestEvent) : NetRequest × String := (e.request, e.initiatorType)

theorem modifyAt_length {α : Type} (l : List α) (n : Nat) (f : α → α) :
    (modifyAt l n f).length = l.length := by
  induction l generalizing n with
  | nil => rfl
  | cons a t ih =>
    cases n with
    | zero => rfl
    | succ m => simp [modifyAt, ih]

theorem modifyAt_get? {α : Type} (l : List α) (n : Nat) (f : α → α) :
    (modifyAt l n f).get? n = (l.get? n).map f := by
  induction l generalizing n with
  | nil => rfl
  | cons a t ih =>
    cases n with
    | zero => rfl
    | succ m => simpa [modifyAt] using ih m

theorem modifyAt_map {α β : Type} (l : List α) (n : Nat) (f : α → α) (g : α → β)
    (h : ∀ a, g (f a) = g a) : (modifyAt l n f).map g = l.map g := by
  induction l generalizing n with
  | nil => rfl
  | cons a t ih =>
    cases n with
    | zero => simp [modifyAt, h]
    | succ m => simp [modifyAt, ih m]

/-- A fold whose step preserves `List.map g` preserves it globally. -/
theorem foldl_map_invariant {β γ : Type} (g : CrawlAction → γ)
    (step : List CrawlAction → β → List CrawlAction)
    (h : ∀ acts e, (step acts e).map g = acts.map g) :
    ∀ (es : List β) (acts : List CrawlAction),
      (es.foldl step acts).map g = acts.map g := by
  intro es
  induction es with
  | nil => intro acts; rfl
  | cons e t ih => intro acts; rw [List.foldl_cons, ih, h]

/-- First-pass provenance: the fold over request events appends, to whatever
actions are already present, exactly one action per kept event, in event
order, carrying that event's request and initiator type. -/
theorem foldl_handleRequestEvent_snap (es : List RequestEvent) (st : CorrState) :
    ((es.foldl handleRequestEvent st).actions).map snap
      = st.actions.map snap
        ++ (es.filter (fun e =>
              match e.request.parsed with
              | none => false
              | some u => u.scheme ≠ "data")).map esnap := by
  induction es generalizing st with
  | nil => simp
  | cons e t ih =>
    rw [List.foldl_cons, ih]
    rcases hp : e.request.parsed with _ | u
    · simp [handleRequestEvent, hp, List.filter_cons]
    · by_cases hs : u.scheme = "data"
      · simp [handleRequestEvent, hp, hs, List.filter_cons]
      · rcases hl : alookup st.requests e.loaderID with _ | p
        · simp [handleRequestEvent, hp, hs, hl, List.filter_cons, snap, esnap]
        · simp only [handleRequestEvent, hp, List.filter_cons]
          rw [if_neg hs]
          simp only [hl]
          rw [List.map_append, modifyAt_map st.actions p
            (fun a => { a with response := e.redirectResponse }) snap (fun a => rfl)]
          simp [snap, esnap, hs]

theorem handleResponseEvent_snap (rm : List (String × Nat))
    (acts : List CrawlAction) (e : ResponseEvent) :
    (handleResponseEvent rm acts e).map snap = acts.map snap := by
  unfold handleResponseEvent
  rcases alookup rm e.requestID with _ | p
  · rfl
  · exact modifyAt_map acts p _ snap (fun a => rfl)

theorem handleErrorEvent_snap (rm : List (String × Nat))
    (acts : List CrawlAction) (e : ErrorEvent) :
    (handleErrorEvent rm acts e).map snap = acts.map snap := by
  unfold handleErrorEvent
  rcases alookup rm e.requestID with _ | p
  · rfl
  · refine modifyAt_map acts p _ snap (fun a => ?_)
    by_cases h : a.error = none <;> simp [h, snap]

theorem handleBodyEvent_snap (rm : List (String × Nat))
    (acts : List CrawlAction) (e : BodyEvent) :
    (handleBodyEvent rm acts e).map snap = acts.map snap := by
  unfold handleBodyEvent
  rcases alookup rm e.requestID with _ | p
  · rfl
  · exact modifyAt_map acts p _ snap (fun a => rfl)

/-- Passes 1–4 produce exactly one action per kept request event, in event
order, with that event's request and initiator type. -/
theorem correlate_snap (evs : BrowserEvents) :
    (correlate evs).map snap = (keptRequests evs).map esnap := by
  unfold correlate keptRequests
  rw [foldl_map_invariant snap _ (handleBodyEvent_snap _),
    foldl_map_invariant snap _ (handleErrorEvent_snap _),
    foldl_map_invariant snap _ (handleResponseEvent_snap _),
    foldl_handleRequestEvent_snap]
  simp

theorem classifyOne_parent (acts : List CrawlAction) (a : CrawlAction) :
    (classifyOne acts a).parent = a.parent := by
  rcases ha : a.parent with _ | p
  · simp [classifyOne, ha]
  · simp only [classifyOne, ha]
    rcases hb : (acts.get? p).bind (fun pa => pa.response) with _ | r
    · simp [ha]
    · by_cases h : 300 ≤ r.status ∧ r.status < 400 <;> simp [h, ha]

theorem classifyOne_response (acts : List CrawlAction) (a : CrawlAction) :
    (classifyOne acts a).response = a.response := by
  rcases ha : a.parent with _ | p
  · simp [classifyOne, ha]
  · simp only [classifyOne, ha]
    rcases hb : (acts.get? p).bind (fun pa => pa.response) with _ | r
    · simp
    · by_cases h : 300 ≤ r.status ∧ r.status < 400 <;> simp [h]

theorem classifyOne_request (acts : List CrawlAction) (a : CrawlAction) :
    (classifyOne acts a).request = a.request := by
  rcases ha : a.parent with _ | p
  · simp [classifyOne, ha]
  · simp only [classifyOne, ha]
    rcases hb : (acts.get? p).bind (fun pa => pa.response) with _ | r
    · simp
    · by_cases h : 300 ≤ r.status ∧ r.status < 400 <;> simp [h]

theorem correlate_request_order (evs : BrowserEvents) :
    (correlate evs).map (fun a => a.request)
      = (keptRequests evs).map (fun e => e.request) := by
  have h := congrArg (List.map Prod.fst) (correlate_snap evs)
  rw [List.map_map, List.map_map] at h
  exact h

/-- The start times (request-event timestamps) of the output actions of
`ActionsFromEvents`, in output order: the first pass emits one action per
kept request event, in event order (`actionsFromEvents_insertion_order`),
and the later passes neither reorder nor drop actions. -/
def outputStartTimes (evs : BrowserEvents) : List ℚ :=
  (keptRequests evs).map (fun e => e.timestamp)

/-- Two request events whose timestamps are out of order: the debugger can
replay its buffered streams in any order it recorded them. -/
def cexEvents : BrowserEvents :=
  { requests :=
      [{ requestID := "r1", loaderID := "l0", timestamp := 2,
         request := { urlStr := "https://w/a",
                      parsed := some { scheme := "https", host := "w", str := "https://w/a" } },
         initiatorType := "other", redirectResponse := none },
       { requestID := "r2", loaderID := "l0", timestamp := 1,
         request := { urlStr := "https://w/b",
                      parsed := some { scheme := "https", host := "w", str := "https://w/b" } },
         initiatorType := "other", redirectResponse := none }],
    responses := [], errors := [], bodies := [] }

/-- C1 counterexample: on `cexEvents` the correlator returns two actions in
request-event insertion order, whose start times are `[2, 1]` — not sorted
by request start time.  The cited `ActionsFromEvents` contains no sort and
never reads the events' timestamps. -/
theorem actionsFromEvents_not_sorted :
    (actionsFromEvents cexEvents).map (fun a => a.request.urlStr)
        = ["https://w/a", "https://w/b"] ∧
    outputStartTimes cexEvents = [2, 1] ∧
    ¬ List.Sorted (· ≤ ·) (outputStartTimes cexEvents) := by
  refine ⟨by rfl, by rfl, ?_⟩
  intro h
  have h21 : outputStartTimes cexEvents = [2, 1] := by rfl
  rw [h21] at h
  have h2 := (List.sorted_cons.mp h).1 1 (by simp)
  norm_num at h2

/-- C1 (amended): the action list returned by `ActionsFromEvents` is in the
insertion order of the request events that survive the skip conditions —
one action per kept event, in event order; no sorting by start time is
performed. -/
theorem actionsFromEvents_insertion_order (evs : BrowserEvents) :
    (actionsFromEvents evs).map (fun a => a.request)
      = (keptRequests evs).map (fun e => e.request) := by
  have h1 : (actionsFromEvents evs).map (fun a => a.request)
      = (correlate evs).map (fun a => a.request) := by
    unfold actionsFromEvents classify
    rw [List.map_map]
    exact List.map_congr_left (fun a _ => classifyOne_request (correlate evs) a)
  rw [h1, correlate_request_order]

/-- C2: after classification, an action with no parent has initiator kind
`user`; an action whose parent's response status lies in `[300, 400)` has
kind `redirect`; an action whose parent's response status lies outside
`[300, 400)` keeps the kind copied from its request event's initiator
type. -/
theorem actionsFromEvents_classification (evs : BrowserEvents) (i : Nat)
    (a : CrawlAction) (ha : (actionsFromEvents evs).get? i = some a) :
    (a.parent = none → a.initiator.kind = "user") ∧
    (∀ p pa r, a.parent = some p →
      (actionsFromEvents evs).get? p = some pa → pa.response = some r →
      ((300 ≤ r.status ∧ r.status < 400) → a.initiator.kind = "redirect") ∧
      (¬ (300 ≤ r.status ∧ r.status < 400) →
        ∃ e, (keptRequests evs).get? i = some e
          ∧ a.initiator.kind = e.initiatorType)) := by
  have hmap : actionsFromEvents evs = (correlate evs).map (classifyOne (correlate evs)) := rfl
  rw [hmap, List.get?_map] at ha
  rcases hb : (correlate evs).get? i with _ | b
  · rw [hb] at ha; exact absurd ha (by simp)
  rw [hb] at ha
  have hab : a = classifyOne (correlate evs) b := by
    injection ha with h; exact h.symm
  constructor
  · intro hpar
    have hbp : b.parent = none := by
      rw [← classifyOne_parent (correlate evs) b, ← hab]; exact hpar
    rw [hab]; simp [classifyOne, hbp]
  · intro p pa r hpar hpa hresp
    have hbp : b.parent = some p := by
      rw [← classifyOne_parent (correlate evs) b, ← hab]; exact hpar
    rw [hmap, List.get?_map] at hpa
    rcases hcp : (correlate evs).get? p with _ | bp
    · rw [hcp] at hpa; exact absurd hpa (by simp)
    rw [hcp] at hpa
    have hpab : pa = classifyOne (correlate evs) bp := by
      injection hpa with h; exact h.symm
    have hbpr : bp.response = some r := by
      rw [← classifyOne_response (correlate evs) bp, ← hpab]; exact hresp
    have hcp2 : (correlate evs)[p]? = some bp := by
      rw [← List.get?_eq_getElem?]; exact hcp
    have hbind : (correlate evs)[p]?.bind (fun x => x.response) = some r := by
      rw [hcp2]; simpa using hbpr
    constructor
    · intro hin
      rw [hab]; simp [classifyOne, hbp, hbind, hin]
    · intro hout
      have hab2 : a = b := by
        rw [hab]; simp [classifyOne, hbp, hbind, hout]
      have hsn := congrArg (fun l => l.get? i) (correlate_snap evs)
      simp only [List.get?_map, hb] at hsn
      rcases hke : (keptRequests evs).get? i with _ | e
      · rw [hke] at hsn; exact absurd hsn (by simp)
      rw [hke] at hsn
      refine ⟨e, rfl, ?_⟩
      have hse : snap b = esnap e := by
        simpa using hsn
      have := congrArg Prod.snd hse
      simpa [snap, esnap, hab2] using this

def wEvents : BrowserEvents :=
  { requests :=
      [{ requestID := "r1", loaderID := "r1", timestamp := 1,
         request := { urlStr := "https://w/",
                      parsed := some { scheme := "https", host := "w", str := "https://w/" } },
         initiatorType := "other", redirectResponse := none },
       { requestID := "r2", loaderID := "r1", timestamp := 2,
         request := { urlStr := "https://w/other",
                      parsed := some { scheme := "https", host := "w", str := "https://w/other" } },
         initiatorType := "other", redirectResponse := some { status := 301 } }],
    responses := [{ requestID := "r2", response := { status := 200 } }],
    errors := [], bodies := [] }

def wAction0 : CrawlAction :=
  { parent := none, initiator := { kind := "user" },
    request := { urlStr := "https://w/",
                 parsed := some { scheme := "https", host := "w", str := "https://w/" } },
    response := some { status := 301 }, error := none, body := none }

def wAction1 : CrawlAction :=
  { parent := some 0, initiator := { kind := "redirect" },
    request := { urlStr := "https://w/other",
                 parsed := some { scheme := "https", host := "w", str := "https://w/other" } },
    response := some { status := 200 }, error := none, body := none }

/-- Witness for C2 on a one-hop redirect. -/
theorem actionsFromEvents_classification_witness :
    (actionsFromEvents wEvents).get? 1 = some wAction1 ∧
    wAction1.initiator.kind = "redirect" := by
  refine ⟨by rfl, ?_⟩
  have h := actionsFromEvents_classification wEvents 1 wAction1 (by rfl)
  exact (h.2 0 wAction0 { status := 301 } rfl (by rfl) rfl).1 (by norm_num)

/-- C8: in the first pass, when a request event's loader id is bound to an
earlier action, that action's response is unconditionally assigned the
event's redirect response — `none` included — and the new action records it
as parent. -/
theorem handleRequestEvent_parent_overwrite (st : CorrState) (e : RequestEvent)
    (u : GoUrl) (p : Nat)
    (hu : e.request.parsed = some u) (hd : u.scheme ≠ "data")
    (hp : alookup st.requests e.loaderID = some p)
    (hlt : p < st.actions.length) :
    ((handleRequestEvent st e).actions.get? p
        = (st.actions.get? p).map (fun a => { a with response := e.redirectResponse })) ∧
    ((handleRequestEvent st e).actions.get? st.actions.length
        = some { parent := some p, initiator := { kind := e.initiatorType },
                 request := e.request, response := none, error := none, body := none }) := by
  simp only [handleRequestEvent, hu]
  rw [if_neg hd]
  simp only [hp]
  constructor
  · rw [List.get?_append (by rw [modifyAt_length]; exact hlt), modifyAt_get?]
  · have hlen := modifyAt_length st.actions p
      (fun a => { a with response := e.redirectResponse })
    rw [← hlen, List.get?_concat_length]

def w8Action : CrawlAction :=
  { parent := none, initiator := { kind := "user" },
    request := { urlStr := "https://w/",
                 parsed := some { scheme := "https", host := "w", str := "https://w/" } },
    response := some { status := 200 }, error := none, body := none }

def w8State : CorrState := { actions := [w8Action], requests := [("r1", 0)] }

def w8Event : RequestEvent :=
  { requestID := "r2", loaderID := "r1", timestamp := 5,
    request := { urlStr := "https://w/img",
                 parsed := some { scheme := "https", host := "w", str := "https://w/img" } },
    initiatorType := "parser", redirectResponse := none }

/-- Witness for C8: a subresource request whose loader id names the document
action erases that action's previously recorded 200 response. -/
theorem handleRequestEvent_parent_overwrite_witness :
    (handleRequestEvent w8State w8Event).actions.get? 0
        = some { w8Action with response := none } ∧
    w8Action.response = some { status := 200 } := by
  have h := handleRequestEvent_parent_overwrite w8State w8Event
    { scheme := "https", host := "w", str := "https://w/img" } 0
    (by rfl) (by decide) (by rfl) (by decide)
  exact ⟨by rw [h.1]; rfl, rfl⟩

/-! ## URL store (store/url.go, `urlStore`)

Go `*url.URL` pointers become natural-number identifiers; a heap
`H : Nat → GoUrl` gives each pointer its pointee (the store compares
pointers, never pointees, in its `urls`/`ids` maps — claim C10).  The three
in-memory maps and the `url_visits` table become association lists (latest
binding first).  SQLite assigns row ids from a counter starting at 1
(`nextId`); the pure model's database operations do not fail. -/

/-- Go `time.Time`, reduced to nanoseconds since the epoch. -/
structure GoTime where
  ns : Int
deriving DecidableEq, Repr

/-- `t.Unix()`: whole seconds since the epoch (floor). -/
def GoTime.unix (t : GoTime) : Int := Int.fdiv t.ns 1000000000

/-- `time.Unix(0, v)`: the instant `v` nanoseconds after the epoch. -/
def timeUnixNano (v : Int) : GoTime := ⟨v⟩

/-- One row of the `url_visits` table; `lastVisit` is the raw stored
integer column (`sql.NullInt64`). -/
structure DbUrlRow where
  id : Int
  url : String
  lastVisit : Option Int
deriving DecidableEq, Repr

/-- `urlStore` plus the database it writes through. -/
structure UrlStore where
  db : List DbUrlRow
  nextId : Int
  resampling : Bool
  filters : List (GoUrl → Bool)
  strings : List (String × Nat)
  urls : List (Nat × Option GoTime)
  ids : List (Nat × Int)

/-- Association-list lookup with `Nat` keys (Go map read, pointer keys). -/
def nlookup {α : Type} (m : List (Nat × α)) (k : Nat) : Option α :=
  (m.find? (fun kv => kv.1 == k)).map (fun kv => kv.2)

/-- Go `delete(m, k)` for pointer-keyed maps. -/
def nerase {α : Type} (m : List (Nat × α)) (k : Nat) : List (Nat × α) :=
  m.filter (fun kv => kv.1 != k)

/-- Body of `Add`'s insert loop for one accepted URL: insert the row, then
record the pointer in `strings`, `urls` and `ids` and bump the count. -/
def addStep (H : Nat → GoUrl) (acc : UrlStore × Int) (p : Nat) : UrlStore × Int :=
  let s := acc.1
  let row : DbUrlRow := { id := s.nextId, url := (H p).str, lastVisit := none }
  ({ s with db := s.db ++ [row],
            nextId := s.nextId + 1,
            strings := ((H p).str, p) :: s.strings,
            urls := (p, none) :: s.urls,
            ids := (p, s.nextId) :: s.ids },
   acc.2 + 1)

/-- `urlStore.Add`: keep the URLs passing every filter and not already in
the in-memory string set (checked against the set as it was on entry — the
set is only updated in the later insert loop); if none survive return 0;
otherwise insert each survivor and count it. -/
def add (H : Nat → GoUrl) (s : UrlStore) (ps : List Nat) : Int × UrlStore :=
  let urlsToAdd := ps.filter (fun p =>
    s.filters.all (fun f => f (H p)) && (alookup s.strings (H p).str).isNone)
  if urlsToAdd.isEmpty then (0, s)
  else
    let out := urlsToAdd.foldl (addStep H) (s, 0)
    (out.2, out.1)

/-- `urlStore.Visit`: look the pointer up in the `urls` map (pointer
identity); if absent do nothing; otherwise set the row's `last_visit`
column to `t.Unix()` — whole seconds — and update (or, without resampling,
remove) the in-memory entry. -/
def visit (s : UrlStore) (p : Nat) (t : GoTime) : UrlStore :=
  match nlookup s.urls p with
  | none => s
  | some _ =>
    let rowId := (nlookup s.ids p).getD 0
    let db2 := s.db.map (fun r =>
      if r.id = rowId then { r with lastVisit := some t.unix } else r)
    if s.resampling then { s with db := db2, urls := (p, some t) :: s.urls }
    else { s with db := db2, urls := nerase s.urls p }

/-- One URL as recovered by `NewURLStore` from a database row. -/
structure LoadedUrl where
  id : Int
  urlStr : String
  lastVisit : Option GoTime
deriving DecidableEq, Repr

/-- The load loop of `NewURLStore`: for each `url_visits` row, the
in-memory last-visit is `time.Unix(0, v)` — the stored integer read as
NANOSECONDS — when the column is non-null and resampling is on, else
none. -/
def loadStore (db : List DbUrlRow) (resampling : Bool) : List LoadedUrl :=
  db.map (fun r =>
    { id := r.id, urlStr := r.url,
      lastVisit := if resampling then r.lastVisit.map timeUnixNano else none })

/-- The last-visit timestamp a reopened store holds for the URL string
`u` (`none` = no row for `u`). -/
def recoveredLastVisit (db : List DbUrlRow) (resampling : Bool) (u : String) :
    Option (Option GoTime) :=
  ((loadStore db resampling).find? (fun e => e.urlStr == u)).map
    (fun e => e.lastVisit)

/-- The two error results of `urlStore.Sample`. -/
inductive SampleErr
  | storeIsEmpty
  | nilSample
deriving DecidableEq, Repr

/-- `urlStore.Sample` with the configured sampler passed explicitly: empty
store → `StoreIsEmptyErr`; sampler returned nil → the "sample is nil"
error; otherwise the sample (removed from the pool when resampling is
off). -/
def sample (s : UrlStore)
    (smp : List (Nat × Option GoTime) → Option Nat) :
    Except SampleErr (Nat × UrlStore) :=
  if s.urls.isEmpty then .error .storeIsEmpty
  else
    match smp s.urls with
    | none => .error .nilSample
    | some u =>
      if s.resampling then .ok (u, s)
      else .ok (u, { s with urls := nerase s.urls u })

/-- The inner loop of `randomPickWeighted`: subtract weights from `r` until
it drops to zero or the entries run out. -/
def pickLoop (r : ℚ) : List (Nat × ℚ) → Option Nat
  | [] => none
  | kw :: rest => if r - kw.2 ≤ 0 then some kw.1 else pickLoop (r - kw.2) rest

/-- `randomPickWeighted`: nil on total weight zero, else a weighted pick
driven by `rand` (the model of `rd.Float64()`, a rational in `[0,1)`). -/
def randomPickWeighted (rand : ℚ) (m : List (Nat × ℚ)) : Option Nat :=
  let totalWeight := m.foldl (fun acc kw => acc + kw.2) 0
  if totalWeight = 0 then none
  else pickLoop (rand * totalWeight) m

/-- The `domainCount` accumulation of `PairSampler`: skip empty hosts,
count visited URLs per host, and force unvisited hosts into the map with
count 0. -/
def domainCountStep (H : Nat → GoUrl) (m : List (String × Int))
    (pt : Nat × Option GoTime) : List (String × Int) :=
  let h := (H pt.1).host
  if h = "" then m
  else
    match pt.2 with
    | some _ => (h, (alookup m h).getD 0 + 1) :: m
    | none =>
      match alookup m h with
      | some _ => m
      | none => (h, 0) :: m

/-- `PairSampler pw`: weight each UNVISITED url by `pw` (when its host has
exactly one visited url) or 1, divided by `domainCount + 1`, then pick
weighted.  Weights are float64 in Go, modelled exactly in `ℚ`: only their
positivity and the zero test of their sum matter here, which float
arithmetic on these values preserves. -/
def pairSampler (H : Nat → GoUrl) (pw : Int) (rand : ℚ)
    (queued : List (Nat × Option GoTime)) : Option Nat :=
  let domainCount := queued.foldl (domainCountStep H) []
  let weights : List (Nat × ℚ) := queued.filterMap (fun pt =>
    match pt.2 with
    | some _ => none
    | none =>
      let dc : Int := (alookup domainCount (H pt.1).host).getD 0
      let baseWeight : ℚ := if dc = 1 then (pw : ℚ) else 1
      some (pt.1, baseWeight / ((dc : ℚ) + 1)))
  randomPickWeighted rand weights

/-- Rows of `url_visits` holding exactly the URL string `u`. -/
def countRows (db : List DbUrlRow) (u : String) : Nat :=
  (db.filter (fun r => r.url == u)).length

def exUrl0 : GoUrl :=
  { scheme := "https", host := "example.org", str := "https://example.org/" }

/-- A heap on which every pointer dereferences to `exUrl0`: distinct
pointers with equal string forms. -/
def exHeap : Nat → GoUrl := fun _ => exUrl0

def freshStore : UrlStore :=
  { db := [], nextId := 1, resampling := true, filters := [],
    strings := [], urls := [], ids := [] }

/-- 2020-01-01T00:00:00Z. -/
def exTime : GoTime := ⟨1577836800 * 1000000000⟩

/-- C3: the visit round trip loses the timestamp.  `Visit` stores
`t.Unix()` — seconds — in `last_visit`, but `NewURLStore` reads the column
back through `time.Unix(0, v)` — as nanoseconds.  After `Add(u)`,
`Visit(u, t)` with `t` = 2020-01-01 and a reopen, the recovered last-visit
is non-null but is `1577836800` NANOSECONDS after the epoch: its
whole-second value is `1`, not `t`'s `1577836800`. -/
theorem urlStore_visit_reopen_unit_mismatch :
    recoveredLastVisit (visit (add exHeap freshStore [0]).2 0 exTime).db true
        exUrl0.str = some (some ⟨1577836800⟩) ∧
    GoTime.unix ⟨1577836800⟩ = 1 ∧
    GoTime.unix exTime = 1577836800 := by
  exact ⟨by rfl, by rfl, by rfl⟩

/-- C7: adding the same URL twice inserts one row.  The first `Add` inserts
and records the string in the in-memory set; the second `Add`'s
deduplication check finds the string and accepts nothing. -/
theorem add_twice_single_row (H : Nat → GoUrl) (s : UrlStore) (p : Nat)
    (hf : s.filters.all (fun f => f (H p)) = true)
    (hnew : alookup s.strings (H p).str = none)
    (hdb : countRows s.db (H p).str = 0) :
    (add H s [p]).1 = 1 ∧
    (add H (add H s [p]).2 [p]).1 = 0 ∧
    countRows (add H (add H s [p]).2 [p]).2.db (H p).str = 1 := by
  have hcond : (s.filters.all (fun f => f (H p))
      && (alookup s.strings (H p).str).isNone) = true := by
    rw [hf, hnew]; rfl
  have h1 : add H s [p]
      = (1, (addStep H (s, 0) p).1) := by
    simp only [add, List.filter, hcond]
    rfl
  have hstr : alookup (addStep H (s, 0) p).1.strings (H p).str = some p := by
    simp [addStep, alookup]
  have hcond2 : ((addStep H (s, 0) p).1.filters.all (fun f => f (H p))
      && (alookup (addStep H (s, 0) p).1.strings (H p).str).isNone) = false := by
    rw [hstr]
    simp
  have h2 : add H (addStep H (s, 0) p).1 [p] = (0, (addStep H (s, 0) p).1) := by
    simp only [add, List.filter, hcond2]
    rfl
  refine ⟨by simp [h1], by simp [h1, h2], ?_⟩
  simp only [h1, h2]
  unfold countRows at hdb ⊢
  simp [addStep, List.filter_append, hdb]

/-- Witness for C7 on a fresh store with no filters. -/
theorem add_twice_single_row_witness :
    (add exHeap freshStore [0]).1 = 1 ∧
    (add exHeap (add exHeap freshStore [0]).2 [0]).1 = 0 ∧
    countRows (add exHeap (add exHeap freshStore [0]).2 [0]).2.db
      (exHeap 0).str = 1 :=
  add_twice_single_row exHeap freshStore 0 rfl rfl rfl

/-- C9: `Sample` yields the "sample is nil" error exactly when the sampler
returns nil on a non-empty pool; the pair sampler returns nil whenever
every stored URL is visited (its weight list is then empty, so the total
weight is zero); `StoreIsEmptyErr` appears iff the pool holds nothing. -/
theorem sample_nil_vs_empty (H : Nat → GoUrl) (pw : Int) (rand : ℚ)
    (s : UrlStore) (smp : List (Nat × Option GoTime) → Option Nat) :
    (s.urls ≠ [] → smp s.urls = none →
      sample s smp = Except.error SampleErr.nilSample) ∧
    ((∀ pt ∈ s.urls, pt.2 ≠ none) → pairSampler H pw rand s.urls = none) ∧
    (sample s smp = Except.error SampleErr.storeIsEmpty ↔ s.urls = []) := by
  refine ⟨?_, ?_, ?_⟩
  · intro hne hnil
    have hemp : s.urls.isEmpty = false := by
      simpa [List.isEmpty_iff] using hne
    simp [sample, hemp, hnil]
  · intro hall
    have hwts : s.urls.filterMap (fun pt =>
        match pt.2 with
        | some _ => none
        | none =>
          let dc : Int := (alookup (s.urls.foldl (domainCountStep H) [])
            (H pt.1).host).getD 0
          let baseWeight : ℚ := if dc = 1 then (pw : ℚ) else 1
          some (pt.1, baseWeight / ((dc : ℚ) + 1))) = [] := by
      rw [List.filterMap_eq_nil]
      intro pt hpt
      rcases hv : pt.2 with _ | tv
      · exact absurd hv (hall pt hpt)
      · rfl
    simp only [pairSampler]
    rw [hwts]
    rfl
  · constructor
    · intro h
      by_cases hemp : s.urls.isEmpty
      · exact List.isEmpty_iff.mp hemp
      · exfalso
        have hemp' : s.urls.isEmpty = false := by
          simpa using hemp
        rcases hsmp : smp s.urls with _ | u
        · rw [sample, if_neg (by simp [hemp']), hsmp] at h
          exact absurd h (by simp)
        · rw [sample, if_neg (by simp [hemp']), hsmp] at h
          by_cases hr : s.resampling <;> simp [hr] at h
    · intro h
      simp [sample, h]

/-- A pool holding one visited URL: non-empty, but the pair sampler has no
candidate. -/
def w9Store : UrlStore := { freshStore with urls := [(0, some ⟨5⟩)] }

/-- Witness for C9: one visited URL → pair sampler nil → "sample is nil". -/
theorem sample_nil_vs_empty_witness :
    pairSampler exHeap 5 (1/2) w9Store.urls = none ∧
    sample w9Store (pairSampler exHeap 5 (1/2))
      = Except.error SampleErr.nilSample := by
  have h := sample_nil_vs_empty exHeap 5 (1/2) w9Store (pairSampler exHeap 5 (1/2))
  have hn : pairSampler exHeap 5 (1/2) w9Store.urls = none :=
    h.2.1 (by decide)
  exact ⟨hn, h.1 (by decide) hn⟩

/-- C10: `Visit` keys on pointer identity.  A pointer absent from the
`urls` map — whatever URL it dereferences to, including the string form of
a stored URL — leaves the store, its maps and the database untouched. -/
theorem visit_pointer_identity (s : UrlStore) (p : Nat) (t : GoTime)
    (h : nlookup s.urls p = none) : visit s p t = s := by
  simp [visit, h]

/-- Witness for C10: pointer 1 dereferences to the same URL string as the
stored pointer 0, yet `Visit` on it is a no-op. -/
theorem visit_pointer_identity_witness :
    (exHeap 1).str = (exHeap 0).str ∧
    alookup (add exHeap freshStore [0]).2.strings (exHeap 1).str = some 0 ∧
    visit (add exHeap freshStore [0]).2 1 exTime = (add exHeap freshStore [0]).2 :=
  ⟨rfl, rfl, visit_pointer_identity (add exHeap freshStore [0]).2 1 exTime rfl⟩

/-! ## File store (store/init.go, `FileStore.Store`)

Bytes are `Nat`s.  The two compressors carry the write/close semantics of
the Go libraries they wrap, for payloads below the deflate window (every
payload relevant here): `gzip.Writer.Write` emits the 10-byte header on the
first call and buffers the compressed payload, which together with the
trailer reaches the underlying file only on `Close`; the no-compression
writer passes bytes straight through.  The compressed block itself is an
abstract injective coding (length-prefixed payload plus an end marker) —
only the truncation structure matters to the property checked.  The
external hasher, mime sniffer and extension table are parameters. -/

/-- The compressors of store/init.go: `NoCompression` and
`GzipCompression` (gzip at `flate.BestCompression`). -/
inductive Comp
  | noComp
  | gzipComp
deriving DecidableEq, Repr

/-- The 10 header bytes Go's `gzip.Writer` emits on its first `Write`. -/
def gzipHeader : List Nat := [31, 139, 8, 0, 0, 0, 0, 0, 0, 255]

/-- State of one library writer over one file: the bytes that have reached
the file, the still-buffered payload, and whether the gzip header is out. -/
structure WriterState where
  file : List Nat
  buf : List Nat
  wroteHeader : Bool
deriving DecidableEq, Repr

/-- `w.Write(raw)`. -/
def compWrite : Comp → WriterState → List Nat → WriterState
  | .noComp, w, raw => { w with file := w.file ++ raw }
  | .gzipComp, w, raw =>
    let w1 := if w.wroteHeader then w
      else { w with file := w.file ++ gzipHeader, wroteHeader := true }
    { w1 with buf := w1.buf ++ raw }

/-- `w.Close()`: flush the compressed block and trailer.  `FileStore.Store`
NEVER calls this. -/
def compClose : Comp → WriterState → WriterState
  | .noComp, w => w
  | .gzipComp, w =>
    let w1 := if w.wroteHeader then w
      else { w with file := w.file ++ gzipHeader, wroteHeader := true }
    { w1 with file := w1.file ++ w1.buf.length :: w1.buf ++ [93], buf := [] }

/-- Reading a gzip stream back: header, then one complete length-prefixed
block closed by the trailer byte; anything truncated is unreadable. -/
def gunzip (f : List Nat) : Option (List Nat) :=
  if f.take 10 = gzipHeader then
    match f.drop 10 with
    | [] => none
    | n :: t => if t.length = n + 1 ∧ t.drop n = [93] then some (t.take n) else none
  else none

/-- Decompressing a file with the configured compressor. -/
def compDecompress : Comp → List Nat → Option (List Nat)
  | .noComp, f => some f
  | .gzipComp, f => gunzip f

/-- `Compressor.Ext()`. -/
def compExt : Comp → String
  | .noComp => ""
  | .gzipComp => ".gz"

/-- `StoredFile` (store/init.go). -/
structure StoredFile where
  hashType : String
  hash : String
  path : String
  orgSize : Nat
  compSize : Nat
  mimeType : String
deriving DecidableEq, Repr

/-- `FileStore` (store/init.go): compressor, root directory, mime
allow-list, and the in-memory dedup map keyed by hash. -/
structure FileStore where
  comp : Comp
  rootDir : String
  allowedMime : List (String → Bool)
  known : List (String × StoredFile)

/-- `NotAllowedMimeErr`. -/
inductive FsErr
  | notAllowedMime
deriving DecidableEq, Repr

/-- `fs.mimeAllowed`. -/
def mimeAllowed (fs : FileStore) (m : String) : Bool :=
  fs.allowedMime.any (fun f => f m)

/-- `FileStore.Store`: hash and sniff the input; reject disallowed mimes
with metadata but no file; return the prior record on a known hash;
otherwise create `<root>/<hash><ext><comp_ext>`, write the raw bytes
through the compressor's writer (which is never closed), record the
current on-disk size as `CompSize`, and remember the record.  Returns the
`(StoredFile, error)` pair, the updated store, and the file written (path
and on-disk contents), if any. -/
def fileStoreStore (hasher detect : List Nat → String)
    (extsOf : String → List String) (fs : FileStore) (raw : List Nat) :
    (StoredFile × Option FsErr) × FileStore × Option (String × List Nat) :=
  let hash := hasher raw
  let mimeType := detect raw
  let storedf0 : StoredFile :=
    { hashType := "sha256", hash := hash, path := "", orgSize := raw.length,
      compSize := 0, mimeType := mimeType }
  if mimeAllowed fs mimeType = false then
    ((storedf0, some FsErr.notAllowedMime), fs, none)
  else
    match alookup fs.known hash with
    | some prior => ((prior, none), fs, none)
    | none =>
      let filename := hash
        ++ (match extsOf mimeType with | [] => "" | e :: _ => e)
        ++ compExt fs.comp
      let absPath := fs.rootDir ++ "/" ++ filename
      let w1 := compWrite fs.comp { file := [], buf := [], wroteHeader := false } raw
      let storedf := { storedf0 with path := absPath, compSize := w1.file.length }
      ((storedf, none), { fs with known := (hash, storedf) :: fs.known },
        some (absPath, w1.file))

def c4Hasher : List Nat → String := fun _ => "h1"

def c4Detect : List Nat → String := fun _ => "text/plain"

def c4Exts : String → List String := fun _ => [".txt"]

/-- The production file-store configuration: gzip-best, mime allowed. -/
def c4Store : FileStore :=
  { comp := Comp.gzipComp, rootDir := "/data",
    allowedMime := [fun _ => true], known := [] }

theorem gunzip_complete (raw : List Nat) :
    gunzip (gzipHeader ++ raw.length :: (raw ++ [93])) = some raw := by
  unfold gunzip
  rw [List.take_left' (show gzipHeader.length = 10 from rfl), if_pos rfl,
    List.drop_left' (show gzipHeader.length = 10 from rfl)]
  have h1 : (raw ++ [93]).length = raw.length + 1 := by simp
  have h2 : (raw ++ [93]).drop raw.length = [93] := List.drop_left _ _
  show (if (raw ++ [93]).length = raw.length + 1 ∧ (raw ++ [93]).drop raw.length = [93]
      then some ((raw ++ [93]).take raw.length) else none) = some raw
  rw [if_pos ⟨h1, h2⟩, List.take_left]

/-- C4 fails on the code: with gzip compression, `Store` writes the raw
bytes through a gzip writer that is never closed, so only the 10-byte
header reaches the disk; `CompSize` records those 10 bytes, and
decompressing the on-disk file recovers nothing — whereas the same writer,
properly closed, would round-trip (`compDecompress ∘ close ∘ write = id`,
last conjunct). -/
theorem fileStore_gzip_roundtrip_broken (raw : List Nat) :
    (fileStoreStore c4Hasher c4Detect c4Exts c4Store raw).2.2
        = some ("/data/h1.txt.gz", gzipHeader) ∧
    (fileStoreStore c4Hasher c4Detect c4Exts c4Store raw).1.1.compSize = 10 ∧
    compDecompress Comp.gzipComp gzipHeader = none ∧
    compDecompress Comp.gzipComp
        (compClose Comp.gzipComp
          (compWrite Comp.gzipComp { file := [], buf := [], wroteHeader := false } raw)).file
      = some raw := by
  refine ⟨rfl, rfl, rfl, ?_⟩
  show gunzip ((gzipHeader ++ []) ++ raw.length :: (raw ++ [93])) = some raw
  rw [List.append_nil]
  exact gunzip_complete raw

/-! ## Transactional save (`Store.SaveSession`)

`α` is the database state; a transaction is a pending copy of it, dropped
on rollback and installed on commit.  The five steps — session row,
actions, console rows, effective-TLD+1 resolution, screenshots — are
parameters (each is itself a composite writer); `SaveSession` is exactly
the Go error-propagation skeleton around them. -/

/-- `Store.SaveSession`: begin; run the five steps; on the first error,
roll back (return the original database) and surface the error; otherwise
commit the transaction state. -/
def saveSession {α ε : Type} (db : α)
    (sessionSave : α → Except ε (Int × α))
    (actionSave : Int → α → Except ε α)
    (consoleSave : Int → α → Except ε α)
    (tldPlusOne : Except ε String)
    (screenSave : Int → String → α → Except ε α) :
    Except ε Unit × α :=
  match sessionSave db with
  | .error e => (.error e, db)
  | .ok (id, tx1) =>
    match actionSave id tx1 with
    | .error e => (.error e, db)
    | .ok tx2 =>
      match consoleSave id tx2 with
      | .error e => (.error e, db)
      | .ok tx3 =>
        match tldPlusOne with
        | .error e => (.error e, db)
        | .ok dom =>
          match screenSave id dom tx3 with
          | .error e => (.error e, db)
          | .ok tx4 => (.ok (), tx4)

/-- The five steps composed as one all-or-nothing state transformer. -/
def sessionPipeline {α ε : Type} (db : α)
    (sessionSave : α → Except ε (Int × α))
    (actionSave : Int → α → Except ε α)
    (consoleSave : Int → α → Except ε α)
    (tldPlusOne : Except ε String)
    (screenSave : Int → String → α → Except ε α) : Except ε α :=
  match sessionSave db with
  | .error e => .error e
  | .ok (id, tx1) =>
    match actionSave id tx1 with
    | .error e => .error e
    | .ok tx2 =>
      match consoleSave id tx2 with
      | .error e => .error e
      | .ok tx3 =>
        match tldPlusOne with
        | .error e => .error e
        | .ok dom =>
          match screenSave id dom tx3 with
          | .error e => .error e
          | .ok tx4 => .ok tx4

/-- C5: `SaveSession` is atomic over the database.  If any step fails the
call returns that error and the database is exactly as before; on success
the database reflects all five steps applied together. -/
theorem saveSession_atomic {α ε : Type} (db : α)
    (sessionSave : α → Except ε (Int × α))
    (actionSave : Int → α → Except ε α)
    (consoleSave : Int → α → Except ε α)
    (tldPlusOne : Except ε String)
    (screenSave : Int → String → α → Except ε α) :
    saveSession db sessionSave actionSave consoleSave tldPlusOne screenSave
      = match sessionPipeline db sessionSave actionSave consoleSave
          tldPlusOne screenSave with
        | .error e => (.error e, db)
        | .ok tx => (.ok (), tx) := by
  rcases hs : sessionSave db with e | p
  · simp [saveSession, sessionPipeline, hs]
  rcases p with ⟨id, tx1⟩
  rcases ha : actionSave id tx1 with e | tx2
  · simp [saveSession, sessionPipeline, hs, ha]
  rcases hc : consoleSave id tx2 with e | tx3
  · simp [saveSession, sessionPipeline, hs, ha, hc]
  rcases ht : tldPlusOne with e | dom
  · simp [saveSession, sessionPipeline, hs, ha, hc, ht]
  rcases hsc : screenSave id dom tx3 with e | tx4 <;>
    simp [saveSession, sessionPipeline, hs, ha, hc, ht, hsc]


/-! ## Dimension id-store (`IDStore.Get`)

The dimension table is a list of `(id, attribute tuple)` rows; SQLite's
`last_insert_rowid()` assigns `max + 1` (at least 1).  The go-cache TTL
cache is an optional association list — expiry merely re-runs the database
path, so clocks are not modelled.  `SELECT ... LIMIT 1` scans into an id
that stays 0 on `ErrNoRows`; the code treats `id > 0` as found and inserts
otherwise. -/

/-- One row of a dimension table. -/
structure DimRow where
  id : Int
  fields : List String
deriving DecidableEq, Repr

/-- `IDStore` state: its table and its optional cache. -/
structure IdStoreState where
  table : List DimRow
  cache : Option (List (String × Int))
deriving DecidableEq, Repr

/-- Go's cache key `fmt.Sprintf("%v", items)` for a slice of strings. -/
def renderKey (items : List String) : String :=
  "[" ++ String.intercalate " " items ++ "]"

/-- `last_insert_rowid()` after inserting into `table`. -/
def nextRowId (table : List DimRow) : Int :=
  1 + table.foldl (fun m r => max m r.id) 0

/-- `foundId`'s cache population (a nil cache stays nil). -/
def cacheSet (st : IdStoreState) (key : String) (id : Int) : IdStoreState :=
  { st with cache := st.cache.map (fun c => (key, id) :: c) }

/-- The insert path of `Get`: insert the row, return and cache
`last_insert_rowid()`. -/
def idInsert (st : IdStoreState) (items : List String) : Int × IdStoreState :=
  (nextRowId st.table,
    cacheSet
      { st with table := st.table ++ [{ id := nextRowId st.table, fields := items }] }
      (renderKey items) (nextRowId st.table))

/-- `IDStore.Get`: cache hit returns the cached id; otherwise
`SELECT id ... LIMIT 1` (first matching row, id scanned as 0 when no row
matches); a positive id is returned and cached; otherwise the row is
inserted and the fresh rowid returned and cached. -/
def idStoreGet (st : IdStoreState) (items : List String) : Int × IdStoreState :=
  match (match st.cache with
         | some c => alookup c (renderKey items)
         | none => none) with
  | some i => (i, st)
  | none =>
    match st.table.find? (fun r => r.fields == items) with
    | some r =>
      if r.id > 0 then (r.id, cacheSet st (renderKey items) r.id)
      else idInsert st items
    | none => idInsert st items

/-- `n` sequential `Get` calls for the same tuple, collecting the ids. -/
def idStoreGetN : Nat → IdStoreState → List String → List Int × IdStoreState
  | 0, st, _ => ([], st)
  | n + 1, st, items =>
    (( idStoreGet st items).1 :: (idStoreGetN n (idStoreGet st items).2 items).1,
      (idStoreGetN n (idStoreGet st items).2 items).2)

/-- Rows of the dimension table matching the tuple `items`. -/
def dimCount (st : IdStoreState) (items : List String) : Nat :=
  (st.table.filter (fun r => r.fields == items)).length

/-- Invariant after the first `Get` of `items`: the table holds exactly one
row for `items`, with positive id `i`, and the cache (when present) maps
the tuple's key to `i`. -/
def idStable (st : IdStoreState) (items : List String) (i : Int) : Prop :=
  st.table.filter (fun r => r.fields == items) = [{ id := i, fields := items }] ∧
  0 < i ∧
  (∀ c, st.cache = some c → alookup c (renderKey items) = some i)

theorem find?_of_filter_singleton {α : Type} (p : α → Bool) (l : List α) (r : α)
    (h : l.filter p = [r]) : l.find? p = some r := by
  induction l with
  | nil => simp at h
  | cons a t ih =>
    by_cases hp : p a
    · rw [List.filter_cons_of_pos hp] at h
      injection h with h1 h2
      subst h1
      simp [List.find?, hp]
    · rw [List.filter_cons_of_neg hp] at h
      have hpf : p a = false := by
        rcases hb : p a with _ | _
        · rfl
        · exact absurd hb hp
      have hstep : List.find? p (a :: t) = List.find? p t := by
        simp [List.find?, hpf]
      rw [hstep]
      exact ih h

theorem foldl_max_nonneg (l : List DimRow) (m : Int) (hm : 0 ≤ m) :
    0 ≤ l.foldl (fun acc r => max acc r.id) m := by
  induction l generalizing m with
  | nil => simpa using hm
  | cons a t ih =>
    exact ih (max m a.id) (le_trans hm (le_max_left _ _))

theorem idStoreGet_stable (st : IdStoreState) (items : List String) (i : Int)
    (h : idStable st items i) :
    (idStoreGet st items).1 = i ∧ idStable (idStoreGet st items).2 items i := by
  obtain ⟨hrow, hpos, hcache⟩ := h
  have hfind : st.table.find? (fun r => r.fields == items)
      = some { id := i, fields := items } :=
    find?_of_filter_singleton _ _ _ hrow
  rcases hc : st.cache with _ | c
  · have hget : idStoreGet st items = (i, cacheSet st (renderKey items) i) := by
      simp [idStoreGet, hc, hfind, hpos]
    rw [hget]
    refine ⟨rfl, hrow, hpos, fun c2 hcc => ?_⟩
    simp [cacheSet, hc] at hcc
  · have hck : alookup c (renderKey items) = some i := hcache c hc
    have hget : idStoreGet st items = (i, st) := by
      simp [idStoreGet, hc, hck]
    rw [hget]
    exact ⟨rfl, hrow, hpos, hcache⟩

theorem idStoreGetN_stable (n : Nat) (st : IdStoreState) (items : List String)
    (i : Int) (h : idStable st items i) :
    (idStoreGetN n st items).1 = List.replicate n i ∧
    idStable (idStoreGetN n st items).2 items i := by
  induction n generalizing st with
  | zero => exact ⟨rfl, h⟩
  | succ m ih =>
    obtain ⟨hval, hst⟩ := idStoreGet_stable st items i h
    obtain ⟨ih1, ih2⟩ := ih (idStoreGet st items).2 hst
    refine ⟨?_, ih2⟩
    show (idStoreGet st items).1 :: (idStoreGetN m (idStoreGet st items).2 items).1
      = List.replicate (m + 1) i
    rw [hval, ih1, List.replicate_succ]

/-- The first `Get` on a state with no row and no cache entry for `items`
inserts one row and establishes the invariant. -/
theorem idStoreGet_fresh (st : IdStoreState) (items : List String)
    (hfresh : st.table.filter (fun r => r.fields == items) = [])
    (hcache : ∀ c, st.cache = some c → alookup c (renderKey items) = none) :
    (idStoreGet st items).1 = nextRowId st.table ∧
    idStable (idStoreGet st items).2 items (nextRowId st.table) := by
  have hfind : st.table.find? (fun r => r.fields == items) = none := by
    rw [List.find?_eq_none]
    intro x hx hpx
    have hmem : x ∈ st.table.filter (fun r => r.fields == items) :=
      List.mem_filter.mpr ⟨hx, hpx⟩
    rw [hfresh] at hmem
    simp at hmem
  have hpos : 0 < nextRowId st.table := by
    have := foldl_max_nonneg st.table 0 le_rfl
    unfold nextRowId
    omega
  have hfilter : (st.table
        ++ [({ id := nextRowId st.table, fields := items } : DimRow)]).filter
      (fun r => r.fields == items)
      = [({ id := nextRowId st.table, fields := items } : DimRow)] := by
    rw [List.filter_append, hfresh]
    simp
  have hins : idStable (idInsert st items).2 items (nextRowId st.table) := by
    refine ⟨hfilter, hpos, fun c2 hcc => ?_⟩
    simp only [idInsert, cacheSet, Option.map] at hcc
    rcases hc : st.cache with _ | c
    · rw [hc] at hcc
      exact absurd hcc (by simp)
    · rw [hc] at hcc
      injection hcc with h2
      rw [← h2]
      simp [alookup]
  rcases hc : st.cache with _ | c
  · have hget : idStoreGet st items = idInsert st items := by
      simp [idStoreGet, hc, hfind]
    rw [hget]
    exact ⟨rfl, hins⟩
  · have hck : alookup c (renderKey items) = none := hcache c hc
    have hget : idStoreGet st items = idInsert st items := by
      simp [idStoreGet, hc, hck, hfind]
    rw [hget]
    exact ⟨rfl, hins⟩

/-- C6: starting from a state with no row and no cache entry for the tuple,
`n ≥ 1` sequential `Get` calls all return one positive id, and the table
ends with exactly one row for the tuple. -/
theorem idStore_get_idempotent (st : IdStoreState) (items : List String)
    (n : Nat) (hn : 1 ≤ n)
    (hfresh : st.table.filter (fun r => r.fields == items) = [])
    (hcache : ∀ c, st.cache = some c → alookup c (renderKey items) = none) :
    ∃ i, 0 < i ∧ (idStoreGetN n st items).1 = List.replicate n i ∧
      dimCount (idStoreGetN n st items).2 items = 1 := by
  obtain ⟨m, rfl⟩ : ∃ m, n = m + 1 := ⟨n - 1, by omega⟩
  obtain ⟨hval, hst⟩ := idStoreGet_fresh st items hfresh hcache
  obtain ⟨h1, h2⟩ := idStoreGetN_stable m (idStoreGet st items).2 items
    (nextRowId st.table) hst
  refine ⟨nextRowId st.table, hst.2.1, ?_, ?_⟩
  · show (idStoreGet st items).1 :: (idStoreGetN m (idStoreGet st items).2 items).1
      = List.replicate (m + 1) (nextRowId st.table)
    rw [hval, h1, List.replicate_succ]
  · show dimCount (idStoreGetN m (idStoreGet st items).2 items).2 items = 1
    unfold dimCount
    rw [h2.1]
    rfl

/-- A fresh id-store with an (empty) cache. -/
def idStoreFresh : IdStoreState := { table := [], cache := some [] }

/-- Witness for C6: two `Get`s of `["GET"]` on a fresh store both return
id 1 and leave one row. -/
theorem idStore_get_idempotent_witness :
    (idStoreGetN 2 idStoreFresh ["GET"]).1 = [1, 1] ∧
    dimCount (idStoreGetN 2 idStoreFresh ["GET"]).2 ["GET"] = 1 := by
  have h := idStore_get_idempotent idStoreFresh ["GET"] 2 (by decide) (by rfl)
    (fun c hc => by injection hc with h2; rw [← h2]; rfl)
  exact ⟨by rfl, h.choose_spec.2.2⟩

end Kraaler
